import Mathlib

/-!
Verification of the MarkTex Markdown-to-LaTeX core against its specification.

The development shallowly embeds the TypeScript source:
* `src/utils/latexEscape.ts` — the escaper (`escapeLaTeX`, `escapeText`,
  `hasChinese`, `getTextWidth`);
* `src/services/tableProcessor.ts` — the table layout engine
  (`TableProcessor.processTable` and its helpers);
* `src/services/latexRenderer.ts` — the Markdown-to-LaTeX emitter;
* `src/services/documentGenerator.ts` — the document assembler.

Strings are modelled as `List Char`.  JavaScript `String.prototype.replace`
with a string pattern replaces only the first occurrence and performs
ECMAScript `GetSubstitution` processing of `$`-sequences in the replacement
string; both behaviours are modelled faithfully (`jsReplaceFirst`,
`getSubstitutionTemplate`).  IEEE-754 double arithmetic in the column-width
computation is modelled over `ℚ`, with `Number.prototype.toFixed(2)` (followed
by `parseFloat`) modelled as rounding half-up to a multiple of `1/100`; all
concrete values reached in the theorems below are far from both binary and
decimal rounding boundaries, so the idealisation agrees with the double
computation there.
-/

namespace MarkTex

/-- The backslash character. -/
def bsChar : Char := '\\'

/-- The backtick character (written via its code point). -/
def tickChar : Char := Char.ofNat 96

/-- Left brace character. -/
def lbChar : Char := Char.ofNat 123

/-- Right brace character. -/
def rbChar : Char := Char.ofNat 125

/-- Apostrophe character. -/
def apChar : Char := Char.ofNat 39

/-- Boolean prefix test on character lists (mirrors scanning a pattern
against the head of the remaining input). -/
def isPre : List Char → List Char → Bool
  | [], _ => true
  | _ :: _, [] => false
  | a :: as, b :: bs => if a = b then isPre as bs else false

/-- Split a string at the first occurrence of `pat`: returns the part before
the match and the part after it.  `none` when `pat` does not occur.  An empty
pattern matches at position 0, as in JavaScript `String.indexOf`. -/
def splitFirst (s pat : List Char) : Option (List Char × List Char) :=
  if isPre pat s then some ([], s.drop pat.length)
  else
    match s with
    | [] => none
    | c :: r => (splitFirst r pat).map (fun p => (c :: p.1, p.2))

/-- Substring containment test (JavaScript `String.prototype.includes`). -/
def strContains (s pat : List Char) : Bool := (splitFirst s pat).isSome

/-- ECMAScript `GetSubstitution` for a string replacement value with a string
search value (no capture groups): `$$` inserts a literal `$`, `$&` the matched
substring, a `$`-backtick the part before the match, `$`-apostrophe the part
after the match; every other `$` is literal. -/
def getSubstitutionTemplate (matched before after : List Char) : List Char → List Char
  | [] => []
  | c :: rest =>
    if c = '$' then
      match rest with
      | [] => [c]
      | d :: rest2 =>
        if d = '$' then '$' :: getSubstitutionTemplate matched before after rest2
        else if d = '&' then matched ++ getSubstitutionTemplate matched before after rest2
        else if d = tickChar then before ++ getSubstitutionTemplate matched before after rest2
        else if d = apChar then after ++ getSubstitutionTemplate matched before after rest2
        else c :: getSubstitutionTemplate matched before after (d :: rest2)
    else c :: getSubstitutionTemplate matched before after rest

/-- JavaScript `s.replace(pat, repl)` with string `pat` and string `repl`:
replaces only the first occurrence of `pat`, processing `$`-sequences in
`repl` via `GetSubstitution`. -/
def jsReplaceFirst (s pat repl : List Char) : List Char :=
  match splitFirst s pat with
  | none => s
  | some (b, a) => b ++ getSubstitutionTemplate pat b a repl ++ a

/-- Decimal digits of a natural number, fuelled so that it reduces in the
kernel; each step divides by 10, so `n + 1` steps always suffice. -/
def natReprAux : ℕ → ℕ → List Char
  | 0, _ => []
  | fuel + 1, n =>
    if n < 10 then [Char.ofNat (48 + n)]
    else natReprAux fuel (n / 10) ++ [Char.ofNat (48 + n % 10)]

/-- Decimal digits of a natural number (JavaScript number-to-string for the
naturals used in placeholder names). -/
def natRepr (n : ℕ) : List Char := natReprAux (n + 1) n

/-- Replace every occurrence of the single character `p` by `repl`
(JavaScript `replace(/p/g, repl)` for a one-character pattern whose
replacement contains no `$`-sequence). -/
def replaceAllChar (p : Char) (repl : List Char) : List Char → List Char
  | [] => []
  | c :: r => (if c = p then repl else [c]) ++ replaceAllChar p repl r

/-- Join pieces with a separator (JavaScript `Array.prototype.join`). -/
def joinWith (sep : List Char) : List (List Char) → List Char
  | [] => []
  | [x] => x
  | x :: xs => x ++ sep ++ joinWith sep xs

/-! ## `src/utils/latexEscape.ts` -/

/-- `LATEX_SPECIAL_CHARS`: the escape table, in the source's insertion
order. -/
def latexSpecialChars : List (Char × List Char) :=
  [ (bsChar, ("\\textbackslash\x7b\x7d").toList)
  , ('&', ("\\&").toList)
  , ('%', ("\\%").toList)
  , ('$', ("\\$").toList)
  , ('#', ("\\#").toList)
  , ('_', ("\\_").toList)
  , (lbChar, [bsChar, lbChar])
  , (rbChar, [bsChar, rbChar])
  , ('~', ("\\textasciitilde\x7b\x7d").toList)
  , ('^', ("\\textasciicircum\x7b\x7d").toList) ]

/-- `escapeText`: first replace every backslash, then apply the remaining
substitutions of the table in order. -/
def escapeText (s : List Char) : List Char :=
  let r := replaceAllChar bsChar (("\\textbackslash\x7b\x7d").toList) s
  latexSpecialChars.foldl
    (fun acc p => if p.1 = bsChar then acc else replaceAllChar p.1 p.2 acc) r

/-- Scan for the first `$$` in the input (the lazy closing delimiter of a
block math span); returns the content before it and the rest after it. -/
def findDollarDollar : List Char → Option (List Char × List Char)
  | [] => none
  | [_] => none
  | c :: d :: r =>
    if c = '$' ∧ d = '$' then some ([], r)
    else (findDollarDollar (d :: r)).map (fun p => (c :: p.1, p.2))

/-- Scan for the first `$` in the input (the closing delimiter of an inline
math span); returns the content before it and the rest after it. -/
def findDollar : List Char → Option (List Char × List Char)
  | [] => none
  | c :: r =>
    if c = '$' then some ([], r)
    else (findDollar r).map (fun p => (c :: p.1, p.2))

/-- Attempt to match the regex `(\$\$[\s\S]+?\$\$|\$[^$]+?\$)` at the head of
the input: the block alternative is tried first, so it wins ties at the same
start position.  Returns the full matched span and the rest of the input. -/
def matchMath : List Char → Option (List Char × List Char)
  | '$' :: '$' :: c :: rest =>
    match findDollarDollar rest with
    | some (pre, r2) => some ('$' :: '$' :: c :: (pre ++ ['$', '$']), r2)
    | none => none
  | '$' :: c :: rest =>
    if c = '$' then none
    else
      match findDollar rest with
      | some (pre, r2) => some ('$' :: c :: (pre ++ ['$']), r2)
      | none => none
  | _ => none

/-- Placeholder token for the `n`-th preserved math span. -/
def mathPlaceholder (n : ℕ) : List Char :=
  '§' :: '§' :: 'M' :: 'A' :: 'T' :: 'H' :: (natRepr n ++ ['§', '§'])

/-- Left-to-right scan of the global math regex, replacing each match by its
placeholder (the callback form of `replace`, so no `$`-processing here) and
collecting the matched spans in order.  `fuel` bounds the number of scan
steps; each step consumes at least one character, so `s.length` suffices. -/
def scanMathAux : ℕ → List Char → ℕ → List Char × List (List Char)
  | 0, s, _ => (s, [])
  | _ + 1, [], _ => ([], [])
  | fuel + 1, c :: rest, n =>
    match matchMath (c :: rest) with
    | some (span, r2) =>
      let p := scanMathAux fuel r2 (n + 1)
      (mathPlaceholder n ++ p.1, span :: p.2)
    | none =>
      let p := scanMathAux fuel rest n
      (c :: p.1, p.2)

/-- The restore loop: `mathParts.forEach((math, index) => result =
result.replace(placeholder, math))` — a first-occurrence string replace whose
replacement string is the math span (so it is subject to `GetSubstitution`). -/
def restoreMath (s : List Char) : List (List Char) → ℕ → List Char
  | [], _ => s
  | m :: rest, n => restoreMath (jsReplaceFirst s (mathPlaceholder n) m) rest (n + 1)

/-- `escapeLaTeX(text, preserveMath = false)`. -/
def escapeLaTeX (text : List Char) (preserveMath : Bool := false) : List Char :=
  if text = [] then []
  else if preserveMath then
    let p := scanMathAux text.length text 0
    restoreMath (escapeText p.1) p.2 0
  else escapeText text

/-- CJK Unified Ideograph test: U+4E00 – U+9FA5. -/
def isCJK (c : Char) : Bool := 0x4E00 ≤ c.toNat ∧ c.toNat ≤ 0x9FA5

/-- `hasChinese(text)`. -/
def hasChineseText (text : List Char) : Bool := text.any isCJK

/-- `getTextWidth(text)`: CJK characters count 2, all others 1. -/
def getTextWidth (text : List Char) : ℕ :=
  text.foldl (fun w c => w + (if isCJK c then 2 else 1)) 0

/-! ## `src/services/tableProcessor.ts` -/

/-- Cell alignment (`'left' | 'center' | 'right'`). -/
inductive Alignment where
  | left
  | center
  | right

deriving instance DecidableEq, Repr for Alignment

/-- Table environment (`'tabular' | 'tabularx' | 'longtable'`). -/
inductive Env where
  | tabular
  | tabularx
  | longtable

deriving instance DecidableEq, Repr for Env

/-- `TableConfig`.  `tableStyle` is a runtime string (TypeScript's union type
does not exist at runtime, and the code compares it with `=== 'booktabs'`);
`autoWrapThreshold` is a positive integer per the configuration contract. -/
structure TableConfig where
  tableStyle : String
  autoWrapThreshold : ℕ

deriving instance DecidableEq, Repr for TableConfig

/-- `TableAnalysis`. -/
structure TableAnalysis where
  numRows : ℕ
  numCols : ℕ
  columnMaxLengths : List ℕ
  hasLongText : Bool
  longTextColumns : List ℕ
  alignments : List Alignment
  totalContentLength : ℕ

deriving instance DecidableEq, Repr for TableAnalysis

/-- `TableProcessResult`.  Column widths inside `latexCode` are rationals
rendered by `qWidthRepr`. -/
structure TableProcessResult where
  latexCode : List Char
  environment : Env
  packages : List String
  analysis : Option TableAnalysis

deriving instance DecidableEq, Repr for TableProcessResult

/-- Remove every `**` (first replace of `getCellDisplayLength`); the global
regex consumes non-overlapping occurrences left to right. -/
def stripStars2 : List Char → List Char
  | '*' :: '*' :: r => stripStars2 r
  | c :: r => c :: stripStars2 r
  | [] => []

/-- Scan for the first `~~` in the input, failing on a newline first (the
content class `.` of `/~~(.+?)~~/` excludes newlines). -/
def findTildeClose : List Char → Option (List Char × List Char)
  | [] => none
  | [_] => none
  | c :: d :: r =>
    if c = '~' ∧ d = '~' then some ([], r)
    else if c = '\n' then none
    else (findTildeClose (d :: r)).map (fun p => (c :: p.1, p.2))

/-- `replace(/~~(.+?)~~/g, '$1')`: lazily matched strikethrough markers are
removed, keeping the (at least one character, newline-free) content. -/
def tildeStrip : ℕ → List Char → List Char
  | 0, s => s
  | _, [] => []
  | fuel + 1, c :: rest =>
    if c = '~' then
      match rest with
      | d :: r2 =>
        if d = '~' then
          match r2 with
          | e :: r3 =>
            if e ≠ '\n' then
              match findTildeClose r3 with
              | some (pre, r4) => (e :: pre) ++ tildeStrip fuel r4
              | none => c :: tildeStrip fuel rest
            else c :: tildeStrip fuel rest
          | [] => c :: tildeStrip fuel rest
        else c :: tildeStrip fuel rest
      | [] => [c]
    else c :: tildeStrip fuel rest

/-- Scan for the first backtick in the input, failing on a newline first. -/
def findTickClose : List Char → Option (List Char × List Char)
  | [] => none
  | c :: r =>
    if c = tickChar then some ([], r)
    else if c = '\n' then none
    else (findTickClose r).map (fun p => (c :: p.1, p.2))

/-- Backtick-delimited inline-code markers are removed, keeping the content
(the regex analogous to the strikethrough one, with single-character
delimiters). -/
def tickStrip : ℕ → List Char → List Char
  | 0, s => s
  | _, [] => []
  | fuel + 1, c :: rest =>
    if c = tickChar then
      match rest with
      | d :: r2 =>
        if d ≠ '\n' then
          match findTickClose r2 with
          | some (pre, r3) => (d :: pre) ++ tickStrip fuel r3
          | none => c :: tickStrip fuel rest
        else c :: tickStrip fuel rest
      | [] => [c]
    else c :: tickStrip fuel rest

/-- Scan for the first occurrence of `stop`, splitting the input there. -/
def takeUntilChar (stop : Char) : List Char → Option (List Char × List Char)
  | [] => none
  | c :: r =>
    if c = stop then some ([], r)
    else (takeUntilChar stop r).map (fun p => (c :: p.1, p.2))

/-- `replace(/\[([^\]]+)\]\([^)]+\)/g, '$1')`: Markdown links are replaced by
their (nonempty) link text when a nonempty parenthesised target follows. -/
def linkStrip : ℕ → List Char → List Char
  | 0, s => s
  | _, [] => []
  | fuel + 1, c :: rest =>
    if c = '[' then
      match takeUntilChar ']' rest with
      | some (txt, r2) =>
        if txt ≠ [] then
          match r2 with
          | p :: r3 =>
            if p = '(' then
              match takeUntilChar ')' r3 with
              | some (url, r4) =>
                if url ≠ [] then txt ++ linkStrip fuel r4
                else c :: linkStrip fuel rest
              | none => c :: linkStrip fuel rest
            else c :: linkStrip fuel rest
          | [] => c :: linkStrip fuel rest
        else c :: linkStrip fuel rest
      | none => c :: linkStrip fuel rest
    else c :: linkStrip fuel rest

/-- `getCellDisplayLength`: strip the Markdown format markers in the source's
order, then measure the display width. -/
def getCellDisplayLength (text : List Char) : ℕ :=
  if text = [] then 0
  else
    let c1 := stripStars2 text
    let c2 := c1.filter (fun c => c != '*')
    let c3 := tildeStrip c2.length c2
    let c4 := tickStrip c3.length c3
    let c5 := linkStrip c4.length c4
    getTextWidth c5

/-- Indices of the columns whose maximal length reaches the threshold
(the source maps each length to its index or `-1` and filters out `-1`;
the index accumulator makes that a structural recursion). -/
def longColsAux (t : ℕ) : ℕ → List ℕ → List ℕ
  | _, [] => []
  | i, len :: rest =>
    if t ≤ len then i :: longColsAux t (i + 1) rest
    else longColsAux t (i + 1) rest

/-- `analyzeTable(rows, alignments)`. -/
def analyzeTable (cfg : TableConfig) (rows : List (List (List Char)))
    (alignments : List Alignment) : TableAnalysis :=
  let numRows := rows.length
  let numCols := (rows.headD []).length
  let columnMaxLengths :=
    (List.range numCols).map
      (fun col => rows.foldl (fun m row => max m (getCellDisplayLength (row.getD col []))) 0)
  { numRows := numRows
    numCols := numCols
    columnMaxLengths := columnMaxLengths
    hasLongText := columnMaxLengths.any (fun len => cfg.autoWrapThreshold ≤ len)
    longTextColumns := longColsAux cfg.autoWrapThreshold 0 columnMaxLengths
    alignments := if 0 < alignments.length then alignments else List.replicate numCols Alignment.left
    totalContentLength := columnMaxLengths.sum }

/-- `selectEnvironment(analysis)`: the decision tree, first match wins. -/
def selectEnvironment (a : TableAnalysis) : Env :=
  if 30 < a.numRows then Env.longtable
  else if a.hasLongText = false then Env.tabular
  else if a.numCols ≤ 5 then Env.tabularx
  else Env.tabular

/-- `toFixed(2)` followed by `parseFloat`: round half-up to a multiple of
`1/100` (ECMAScript `toFixed` picks the larger candidate on ties). -/
def round2 (q : ℚ) : ℚ := ((⌊q * 100 + 1 / 2⌋ : ℤ) : ℚ) / 100

/-- `1.0 - 0.05 - (numCols - 1) * 0.02`, the width left after the page-margin
and inter-column reservations. -/
def availableWidth (numCols : ℕ) : ℚ := 1 - 1 / 20 - ((numCols : ℚ) - 1) * (1 / 50)

/-- One clamped proportional share: `avail * len / total`, clamped to
`[0.1, 0.8]`, rounded to two decimals. -/
def clampWidth (avail : ℚ) (len total : ℕ) : ℚ :=
  round2 (min (max (avail * ((len : ℚ) / (total : ℚ))) (1 / 10)) (4 / 5))

/-- The `longTextColumns.forEach` loop writing each long column's clamped
share into the width array. -/
def allocLoop (avail : ℚ) (lengths : List ℕ) (total : ℕ) :
    List ℕ → List ℚ → List ℚ
  | [], widths => widths
  | c :: rest, widths =>
    allocLoop avail lengths total rest (widths.set c (clampWidth avail (lengths.getD c 0) total))

/-- The width array after clamping, before the overflow rescale. -/
def clampedWidths (lengths : List ℕ) (longCols : List ℕ) : List ℚ :=
  allocLoop (availableWidth lengths.length) lengths
    ((longCols.map (fun c => lengths.getD c 0)).sum) longCols
    (List.replicate lengths.length 0)

/-- `calculateColumnWidths(columnMaxLengths, longTextColumns)`. -/
def calculateColumnWidths (lengths : List ℕ) (longCols : List ℕ) : List ℚ :=
  if longCols = [] then List.replicate lengths.length 0
  else
    let widths := clampedWidths lengths longCols
    let allocated := widths.sum
    let avail := availableWidth lengths.length
    if avail < allocated then
      widths.map (fun w => if 0 < w then round2 (w * (avail / allocated)) else w)
    else widths

/-- `getAlignmentChar`. -/
def getAlignmentChar : Alignment → Char
  | Alignment.left => 'l'
  | Alignment.center => 'c'
  | Alignment.right => 'r'

/-- `getWidthType`: the vertical-anchoring variant of the paragraph box. -/
def getWidthType : Alignment → Char
  | Alignment.left => 'p'
  | Alignment.center => 'm'
  | Alignment.right => 'b'

/-- Shortest decimal rendering of a width `k/100` with `1 ≤ k ≤ 99`, as
JavaScript template interpolation prints such a number. -/
def qWidthRepr (q : ℚ) : List Char :=
  let k := (⌊q * 100⌋ : ℤ).toNat
  if k % 10 = 0 then '0' :: '.' :: natRepr (k / 10)
  else if k < 10 then '0' :: '.' :: '0' :: natRepr k
  else '0' :: '.' :: natRepr k

/-- `generateTabularxSpec`. -/
def generateTabularxSpec (numCols : ℕ) (alignments : List Alignment)
    (longCols : List ℕ) : List Char :=
  joinWith [' ']
    ((List.range numCols).map
      (fun i =>
        if longCols.contains i then ['X']
        else [getAlignmentChar (alignments.getD i Alignment.left)]))

/-- `generateTabularSpec`. -/
def generateTabularSpec (numCols : ℕ) (columnMaxLengths : List ℕ)
    (alignments : List Alignment) (longCols : List ℕ) : List Char :=
  let widths := calculateColumnWidths columnMaxLengths longCols
  joinWith [' ']
    ((List.range numCols).map
      (fun i =>
        let align := alignments.getD i Alignment.left
        if longCols.contains i ∧ 0 < widths.getD i 0 then
          getWidthType align :: lbChar :: (qWidthRepr (widths.getD i 0) ++ ("\\textwidth").toList ++ [rbChar])
        else [getAlignmentChar align]))

/-- `generateColumnSpec`. -/
def generateColumnSpec (a : TableAnalysis) (environment : Env) : List Char :=
  if environment = Env.tabularx then
    generateTabularxSpec a.numCols a.alignments a.longTextColumns
  else
    generateTabularSpec a.numCols a.columnMaxLengths a.alignments a.longTextColumns

/-- JavaScript `String.prototype.trim` on a cell (whitespace at both ends). -/
def trimCell (s : List Char) : List Char :=
  ((s.dropWhile Char.isWhitespace).reverse.dropWhile Char.isWhitespace).reverse

/-- `generateTableContent(rows)`: per row, trim the cells and join them with
the column separator. -/
def generateTableContent (rows : List (List (List Char))) : List (List Char) :=
  rows.map (fun row => joinWith (" & ").toList (row.map trimCell))

/-- Environment name as it appears in `\begin`/`\end`. -/
def envName : Env → List Char
  | Env.tabular => ("tabular").toList
  | Env.tabularx => ("tabularx").toList
  | Env.longtable => ("longtable").toList

/-- `assembleTable(environment, columnSpec, content)`. -/
def assembleTable (cfg : TableConfig) (environment : Env) (columnSpec : List Char)
    (content : List (List Char)) : List Char :=
  let useBootabs := cfg.tableStyle = "booktabs"
  let beginLine :=
    if environment = Env.tabularx then
      ("\\begin\x7btabularx\x7d\x7b\\textwidth\x7d\x7b").toList ++ columnSpec ++ [rbChar]
    else if environment = Env.longtable then
      ("\\begin\x7blongtable\x7d\x7b").toList ++ columnSpec ++ [rbChar]
    else
      ("\\begin\x7btabular\x7d\x7b").toList ++ columnSpec ++ [rbChar]
  let topRule := if useBootabs then ("\\toprule").toList else ("\\hline").toList
  let midRule := if useBootabs then ("\\midrule").toList else ("\\hline").toList
  let botRule := if useBootabs then ("\\bottomrule").toList else ("\\hline").toList
  let headerLines :=
    match content with
    | [] => []
    | c0 :: _ => [c0 ++ (" \\\\").toList, midRule]
  let bodyLines := (content.drop 1).map (fun c => c ++ (" \\\\").toList)
  let endLine := ("\\end\x7b").toList ++ envName environment ++ [rbChar]
  joinWith ['\n']
    ([beginLine, topRule] ++ headerLines ++ bodyLines ++ [botRule, endLine])

/-- `getRequiredPackages(environment)`. -/
def getRequiredPackages (cfg : TableConfig) (environment : Env) : List String :=
  (if cfg.tableStyle = "booktabs" then ["booktabs"] else []) ++
    (match environment with
     | Env.tabularx => ["tabularx"]
     | Env.longtable => ["longtable"]
     | Env.tabular => [])

/-- `processTable(rows, alignments)`. -/
def processTable (cfg : TableConfig) (rows : List (List (List Char)))
    (alignments : List Alignment) : TableProcessResult :=
  if rows = [] then
    { latexCode := [], environment := Env.tabular, packages := [], analysis := none }
  else
    let analysis := analyzeTable cfg rows alignments
    let environment := selectEnvironment analysis
    let columnSpec := generateColumnSpec analysis environment
    let tableContent := generateTableContent rows
    { latexCode := assembleTable cfg environment columnSpec tableContent
      environment := environment
      packages := getRequiredPackages cfg environment
      analysis := some analysis }

/-- `Partial<TableConfig>`: fields may be absent. -/
structure PartialTableConfig where
  tableStyle : Option String
  autoWrapThreshold : Option ℕ

/-- `TableProcessor.updateConfig(newConfig)`: spread-merge of the partial
configuration over the existing one. -/
def updateConfig (cfg : TableConfig) (p : PartialTableConfig) : TableConfig :=
  { tableStyle := p.tableStyle.getD cfg.tableStyle
    autoWrapThreshold := p.autoWrapThreshold.getD cfg.autoWrapThreshold }

/-! ## `src/services/latexRenderer.ts` -/

/-- A markdown-it token, restricted to the fields the renderer reads.
`children` is `none` for block tokens (JavaScript `null`), `some` for inline
containers (possibly empty, which is truthy as an array). -/
structure Token where
  ttype : String
  tag : String := ""
  content : List Char := []
  children : Option (List Token) := none
  attrs : List (String × List Char) := []
  info : List Char := []

/-- `token.attrGet(name)`. -/
def attrGet (t : Token) (name : String) : Option (List Char) :=
  (t.attrs.find? (fun p => p.1 == name)).map (fun p => p.2)

/-- The value read when indexing past the end of the token array; its type
tag matches no dispatch case, mirroring the guarded uses of `undefined` in
the source. -/
def defToken : Token :=
  { ttype := "", tag := "", content := [], children := none, attrs := [], info := [] }

/-- The renderer's feature flags. -/
structure Flags where
  hasChinese : Bool
  hasImages : Bool
  hasTables : Bool
  hasCode : Bool
  hasMath : Bool

deriving instance DecidableEq, Repr for Flags

/-- All-false flags, as reset at the start of `render`. -/
def blankFlags : Flags :=
  { hasChinese := false, hasImages := false, hasTables := false
    hasCode := false, hasMath := false }

/-- The renderer's mutable accumulator: the package `Set` (insertion
ordered, duplicate-free) and the flags. -/
structure Accum where
  packages : List String
  flags : Flags

deriving instance DecidableEq, Repr for Accum

/-- `this.packages.add(p)`: append if not already present. -/
def addPackage (acc : Accum) (p : String) : Accum :=
  if acc.packages.contains p then acc
  else { acc with packages := acc.packages ++ [p] }

/-- `RenderResult`: the emitted content, the package set, and the five
feature flags spread onto the result. -/
structure RenderResult where
  content : List Char
  packages : List String
  hasChinese : Bool
  hasImages : Bool
  hasTables : Bool
  hasCode : Bool
  hasMath : Bool

deriving instance DecidableEq, Repr for RenderResult

/-- `parseInt` on the digits that follow the sectioning tag's first
character (`parseInt` reads the longest digit prefix; `none` models `NaN`). -/
def parseIntPrefix (s : List Char) : Option ℕ :=
  let ds := s.takeWhile (fun c => c.isDigit)
  if ds = [] then none
  else some (ds.foldl (fun n c => n * 10 + (c.toNat - 48)) 0)

/-- The ordered sectioning command table of `renderHeading`. -/
def headingCommands : List String :=
  ["section", "subsection", "subsubsection", "paragraph", "subparagraph"]

/-- The iteration over `token.children` in `renderInline`, producing the
escaped pieces in order and threading the accumulator. -/
def renderInlineChildren (acc : Accum) : List Token → Accum × List (List Char)
  | [] => (acc, [])
  | child :: rest =>
    if child.ttype = "text" then
      let p := renderInlineChildren acc rest
      (p.1, escapeLaTeX child.content true :: p.2)
    else if child.ttype = "strong_open" ∨ child.ttype = "strong_close" ∨
        child.ttype = "em_open" ∨ child.ttype = "em_close" ∨
        child.ttype = "link_open" ∨ child.ttype = "link_close" ∨
        child.ttype = "s_open" ∨ child.ttype = "s_close" then
      renderInlineChildren acc rest
    else if child.ttype = "code_inline" then
      let p := renderInlineChildren acc rest
      (p.1, (("\\texttt\x7b").toList ++ escapeLaTeX child.content false ++ [rbChar]) :: p.2)
    else if child.ttype = "image" then
      let acc := addPackage { acc with flags := { acc.flags with hasImages := true } } "graphicx"
      let src := (attrGet child "src").getD []
      let p := renderInlineChildren acc rest
      (p.1, (("\\includegraphics\x7b").toList ++ src ++ [rbChar]) :: p.2)
    else
      let p := renderInlineChildren acc rest
      if child.content = [] then p
      else (p.1, escapeLaTeX child.content true :: p.2)

/-- The `processInlineFormatting` loop: on each decoration open marker whose
matching close fits before the end of the child array, re-escape the
following text child, build the decorated form, and substitute it for the
first occurrence of the escaped text in the already-rendered string.  The
loop index advances by 3 after a handled marker, else by 1. -/
def procFmtAux : ℕ → Accum → List Token → List Char → ℕ → Accum × List Char
  | 0, acc, _, result, _ => (acc, result)
  | fuel + 1, acc, children, result, i =>
    if i < children.length then
      let child := children.getD i defToken
      if child.ttype = "strong_open" ∧ i + 2 < children.length then
        let textToken := children.getD (i + 1) defToken
        let result :=
          if textToken.ttype = "text" then
            let text := escapeLaTeX textToken.content true
            jsReplaceFirst result text (("\\textbf\x7b").toList ++ text ++ [rbChar])
          else result
        procFmtAux fuel acc children result (i + 3)
      else if child.ttype = "em_open" ∧ i + 2 < children.length then
        let textToken := children.getD (i + 1) defToken
        let result :=
          if textToken.ttype = "text" then
            let text := escapeLaTeX textToken.content true
            jsReplaceFirst result text (("\\textit\x7b").toList ++ text ++ [rbChar])
          else result
        procFmtAux fuel acc children result (i + 3)
      else if child.ttype = "s_open" ∧ i + 2 < children.length then
        let acc := addPackage acc "ulem"
        let textToken := children.getD (i + 1) defToken
        let result :=
          if textToken.ttype = "text" then
            let text := escapeLaTeX textToken.content true
            jsReplaceFirst result text (("\\sout\x7b").toList ++ text ++ [rbChar])
          else result
        procFmtAux fuel acc children result (i + 3)
      else if child.ttype = "link_open" ∧ i + 2 < children.length then
        let acc := addPackage acc "hyperref"
        let textToken := children.getD (i + 1) defToken
        let url := (attrGet child "href").getD []
        let result :=
          if textToken.ttype = "text" then
            jsReplaceFirst result (escapeLaTeX textToken.content true)
              (("\\href\x7b").toList ++ url ++ [rbChar, lbChar] ++
                escapeLaTeX textToken.content false ++ [rbChar])
          else result
        procFmtAux fuel acc children result (i + 3)
      else procFmtAux fuel acc children result (i + 1)
    else (acc, result)

/-- `processInlineFormatting(token, content)`. -/
def processInlineFormatting (acc : Accum) (tok : Token) (content : List Char) :
    Accum × List Char :=
  match tok.children with
  | none => (acc, content)
  | some children => procFmtAux (children.length + 1) acc children content 0

/-- `renderInline(token)`. -/
def renderInline (acc : Accum) (tok : Token) : Accum × List Char :=
  match tok.children with
  | none => (acc, [])
  | some children =>
    let p := renderInlineChildren acc children
    processInlineFormatting p.1 tok p.2.flatten

/-- `renderParagraph(tokens, index)`: the inline child at `index + 1`. -/
def renderParagraph (acc : Accum) (tokens : List Token) (i : ℕ) : Accum × List Char :=
  renderInline acc (tokens.getD (i + 1) defToken)

/-- `renderHeading(tokens, index)`: sectioning command from the tag level,
clamped to the table; a `NaN` level yields the string `undefined` as
JavaScript interpolation would. -/
def renderHeading (acc : Accum) (tokens : List Token) (i : ℕ) : Accum × List Char :=
  let openT := tokens.getD i defToken
  let contentT := tokens.getD (i + 1) defToken
  let command :=
    match parseIntPrefix (openT.tag.toList.drop 1) with
    | some level => if 1 ≤ level then headingCommands.getD (min (level - 1) 4) "undefined" else "undefined"
    | none => "undefined"
  let p := renderInline acc contentT
  (p.1, bsChar :: (command.toList ++ [lbChar] ++ p.2 ++ [rbChar]))

/-- `renderCodeBlock(token)`. -/
def renderCodeBlock (acc : Accum) (t : Token) : Accum × List Char :=
  let acc := addPackage (addPackage { acc with flags := { acc.flags with hasCode := true } } "listings") "xcolor"
  let out :=
    if t.info ≠ [] then
      ("\\begin\x7blstlisting\x7d[language=").toList ++ t.info ++ [']', '\n'] ++
        t.content ++ ("\\end\x7blstlisting\x7d").toList
    else
      ("\\begin\x7blstlisting\x7d").toList ++ ['\n'] ++ t.content ++
        ("\\end\x7blstlisting\x7d").toList
  (acc, out)

/-- The `extractTableData` while-loop, threading the in-progress row, the
header flag, and the collected rows and alignments. -/
def extractTableAux : ℕ → Accum → List Token → ℕ → List (List Char) → Bool →
    List (List (List Char)) → List Alignment →
    Accum × List (List (List Char)) × List Alignment
  | 0, acc, _, _, _, _, rows, aligns => (acc, rows, aligns)
  | fuel + 1, acc, tokens, i, currentRow, isHeader, rows, aligns =>
    if i < tokens.length ∧ (tokens.getD i defToken).ttype ≠ "table_close" then
      let t := tokens.getD i defToken
      if t.ttype = "thead_open" ∨ t.ttype = "tbody_open" then
        extractTableAux fuel acc tokens (i + 1) currentRow isHeader rows aligns
      else if t.ttype = "thead_close" ∨ t.ttype = "tbody_close" then
        extractTableAux fuel acc tokens (i + 1) currentRow false rows aligns
      else if t.ttype = "tr_open" then
        extractTableAux fuel acc tokens (i + 1) [] isHeader rows aligns
      else if t.ttype = "tr_close" then
        let rows := if currentRow ≠ [] then rows ++ [currentRow] else rows
        extractTableAux fuel acc tokens (i + 1) currentRow isHeader rows aligns
      else if t.ttype = "th_open" ∨ t.ttype = "td_open" then
        let style := (attrGet t "style").getD []
        let aligns :=
          if isHeader ∧ t.ttype = "th_open" then
            if strContains style ("text-align:center").toList then aligns ++ [Alignment.center]
            else if strContains style ("text-align:right").toList then aligns ++ [Alignment.right]
            else aligns ++ [Alignment.left]
          else aligns
        let p := renderInline acc (tokens.getD (i + 1) defToken)
        extractTableAux fuel p.1 tokens (i + 2) (currentRow ++ [p.2]) isHeader rows aligns
      else
        extractTableAux fuel acc tokens (i + 1) currentRow isHeader rows aligns
    else (acc, rows, aligns)

/-- `extractTableData(tokens, startIndex)`. -/
def extractTableData (acc : Accum) (tokens : List Token) (startIndex : ℕ) :
    Accum × List (List (List Char)) × List Alignment :=
  extractTableAux (tokens.length + 1) acc tokens (startIndex + 1) [] true [] []

/-- `renderTable(tokens, startIndex)`: sets the table flag, extracts the
table data, delegates to the table processor, and merges its packages. -/
def renderTable (cfg : TableConfig) (acc : Accum) (tokens : List Token) (i : ℕ) :
    Accum × List Char :=
  let acc := { acc with flags := { acc.flags with hasTables := true } }
  let e := extractTableData acc tokens i
  let result := processTable cfg e.2.1 e.2.2
  (result.packages.foldl addPackage e.1, result.latexCode)

/-- The inner depth-counting skip of `renderListItem`: advance past the
matching `*list_close*` using substring tests on the token type. -/
def skipToListClose : ℕ → List Token → ℕ → ℕ → ℕ
  | 0, _, i, _ => i
  | fuel + 1, tokens, i, depth =>
    if i < tokens.length ∧ 0 < depth then
      let ty := (tokens.getD i defToken).ttype.toList
      let depth := if strContains ty ("list_open").toList then depth + 1 else depth
      let depth := if strContains ty ("list_close").toList then depth - 1 else depth
      skipToListClose fuel tokens (i + 1) depth
    else i

mutual

/-- `renderToken(token, tokens, index)`: dispatch on the block token type;
unrecognized types emit nothing. -/
def renderToken : ℕ → TableConfig → Accum → List Token → ℕ → Accum × List Char
  | 0, _, acc, _, _ => (acc, [])
  | fuel + 1, cfg, acc, tokens, i =>
    let t := tokens.getD i defToken
    if t.ttype = "heading_open" then renderHeading acc tokens i
    else if t.ttype = "paragraph_open" then renderParagraph acc tokens i
    else if t.ttype = "bullet_list_open" ∨ t.ttype = "ordered_list_open" then
      renderList fuel cfg acc tokens i
    else if t.ttype = "blockquote_open" then renderBlockquote fuel cfg acc tokens i
    else if t.ttype = "fence" ∨ t.ttype = "code_block" then renderCodeBlock acc t
    else if t.ttype = "table_open" then renderTable cfg acc tokens i
    else if t.ttype = "hr" then (acc, ("\\hrule").toList)
    else (acc, [])

/-- The `renderList` while-loop: visit every token before the matching
close type, emitting an item line for each `list_item_open`. -/
def renderListAux : ℕ → TableConfig → Accum → List Token → ℕ → String →
    Accum × List (List Char)
  | 0, _, acc, _, _, _ => (acc, [])
  | fuel + 1, cfg, acc, tokens, i, closeType =>
    if i < tokens.length ∧ (tokens.getD i defToken).ttype ≠ closeType then
      if (tokens.getD i defToken).ttype = "list_item_open" then
        let p := renderListItem fuel cfg acc tokens i
        let q := renderListAux fuel cfg p.1 tokens (i + 1) closeType
        (q.1, (("\\item ").toList ++ p.2) :: q.2)
      else renderListAux fuel cfg acc tokens (i + 1) closeType
    else (acc, [])

/-- `renderList(tokens, startIndex)`. -/
def renderList : ℕ → TableConfig → Accum → List Token → ℕ → Accum × List Char
  | 0, _, acc, _, _ => (acc, [])
  | fuel + 1, cfg, acc, tokens, startIndex =>
    let openT := tokens.getD startIndex defToken
    let isOrdered := openT.ttype = "ordered_list_open"
    let envN := if isOrdered then ("enumerate") else ("itemize")
    let closeType := if isOrdered then ("ordered_list_close") else ("bullet_list_close")
    let p := renderListAux fuel cfg acc tokens (startIndex + 1) closeType
    (p.1,
      joinWith ['\n']
        ((("\\begin\x7b").toList ++ envN.toList ++ [rbChar]) :: p.2 ++
          [("\\end\x7b").toList ++ envN.toList ++ [rbChar]]))

/-- The `renderListItem` while-loop: paragraphs advance by 3, nested lists
are rendered and then skipped by depth counting, all else advances by 1. -/
def renderListItemAux : ℕ → TableConfig → Accum → List Token → ℕ →
    Accum × List (List Char)
  | 0, _, acc, _, _ => (acc, [])
  | fuel + 1, cfg, acc, tokens, i =>
    if i < tokens.length ∧ (tokens.getD i defToken).ttype ≠ "list_item_close" then
      let t := tokens.getD i defToken
      if t.ttype = "paragraph_open" then
        let p := renderParagraph acc tokens i
        let q := renderListItemAux fuel cfg p.1 tokens (i + 3)
        (q.1, p.2 :: q.2)
      else if t.ttype = "bullet_list_open" ∨ t.ttype = "ordered_list_open" then
        let p := renderList fuel cfg acc tokens i
        let j := skipToListClose tokens.length tokens (i + 1) 1
        let q := renderListItemAux fuel cfg p.1 tokens j
        (q.1, p.2 :: q.2)
      else renderListItemAux fuel cfg acc tokens (i + 1)
    else (acc, [])

/-- `renderListItem(tokens, startIndex)`: the collected pieces joined by a
space. -/
def renderListItem : ℕ → TableConfig → Accum → List Token → ℕ → Accum × List Char
  | 0, _, acc, _, _ => (acc, [])
  | fuel + 1, cfg, acc, tokens, startIndex =>
    let p := renderListItemAux fuel cfg acc tokens (startIndex + 1)
    (p.1, joinWith [' '] p.2)

/-- The `renderBlockquote` while-loop: recursively dispatch every token
before `blockquote_close`, keeping nonempty renderings. -/
def renderBlockquoteAux : ℕ → TableConfig → Accum → List Token → ℕ →
    Accum × List (List Char)
  | 0, _, acc, _, _ => (acc, [])
  | fuel + 1, cfg, acc, tokens, i =>
    if i < tokens.length ∧ (tokens.getD i defToken).ttype ≠ "blockquote_close" then
      let p := renderToken fuel cfg acc tokens i
      let q := renderBlockquoteAux fuel cfg p.1 tokens (i + 1)
      (q.1, if p.2 = [] then q.2 else p.2 :: q.2)
    else (acc, [])

/-- `renderBlockquote(tokens, startIndex)`. -/
def renderBlockquote : ℕ → TableConfig → Accum → List Token → ℕ → Accum × List Char
  | 0, _, acc, _, _ => (acc, [])
  | fuel + 1, cfg, acc, tokens, startIndex =>
    let p := renderBlockquoteAux fuel cfg acc tokens (startIndex + 1)
    (p.1,
      joinWith ['\n']
        (("\\begin\x7bquote\x7d").toList :: p.2 ++ [("\\end\x7bquote\x7d").toList]))

/-- The `renderTokens` while-loop: render every token, advancing the index
by one each iteration, keeping nonempty renderings. -/
def renderTokensAux : ℕ → TableConfig → Accum → List Token → ℕ →
    Accum × List (List Char)
  | 0, _, acc, _, _ => (acc, [])
  | fuel + 1, cfg, acc, tokens, i =>
    if i < tokens.length then
      let p := renderToken fuel cfg acc tokens i
      let q := renderTokensAux fuel cfg p.1 tokens (i + 1)
      (q.1, if p.2 = [] then q.2 else p.2 :: q.2)
    else (acc, [])

end

/-- `renderTokens(tokens)`: the kept pieces joined by blank lines.  The fuel
bounds the token-walk depth; it is a function of the token list alone, so
repeated renders of the same input use the same fuel. -/
def renderTokens (cfg : TableConfig) (acc : Accum) (tokens : List Token) :
    Accum × List Char :=
  let fuel := (tokens.length + 2) * (tokens.length + 2) * (tokens.length + 2)
  let p := renderTokensAux fuel cfg acc tokens 0
  (p.1, joinWith ('\n' :: ['\n']) p.2)

/-- `render(markdown)`: reset the package set and the flags, set the CJK
flag from the raw markdown, parse (the external markdown-it parser is an
explicit function parameter), and walk the tokens.  The incoming accumulator
is discarded by the reset. -/
def render (parse : List Char → List Token) (cfg : TableConfig) (_acc : Accum)
    (markdown : List Char) : Accum × RenderResult :=
  let acc0 : Accum := { packages := [], flags := blankFlags }
  let acc1 :=
    if hasChineseText markdown then
      { acc0 with flags := { acc0.flags with hasChinese := true } }
    else acc0
  let tokens := parse markdown
  let p := renderTokens cfg acc1 tokens
  (p.1,
    { content := p.2
      packages := p.1.packages
      hasChinese := p.1.flags.hasChinese
      hasImages := p.1.flags.hasImages
      hasTables := p.1.flags.hasTables
      hasCode := p.1.flags.hasCode
      hasMath := p.1.flags.hasMath })

/-- `LatexRenderer.updateTableConfig(config)`: delegate to the table
processor's `updateConfig`. -/
def updateTableConfig (cfg : TableConfig) (p : PartialTableConfig) : TableConfig :=
  updateConfig cfg p

/-! ## `src/services/documentGenerator.ts` -/

/-- `DocumentConfig`.  The option fields are runtime strings; the union
types exist only at compile time. -/
structure DocumentConfig where
  documentClass : String
  fontSize : String
  pageSize : String
  enableChinese : Bool
  enableTOC : Bool

deriving instance DecidableEq, Repr for DocumentConfig

/-- `generateDocumentClass(config)`. -/
def generateDocumentClass (config : DocumentConfig) : List Char :=
  ("\\documentclass[").toList ++ config.fontSize.toList ++ [','] ++
    config.pageSize.toList ++ [']', lbChar] ++ config.documentClass.toList ++ [rbChar]

/-- `generatePackages(result, config, forExport)`: the conditional package
block, one pushed line per entry, joined by newlines. -/
def generatePackages (result : RenderResult) (config : DocumentConfig)
    (forExport : Bool) : List Char :=
  let packages : List (List Char) :=
    [("\\usepackage\x7bgeometry\x7d").toList] ++
    (if config.enableChinese ∨ result.hasChinese then
      [("\\usepackage\x7bfontspec\x7d").toList, ("\\usepackage\x7bxeCJK\x7d").toList] ++
      (if forExport then
        [("% 使用 Overleaf 系统字体,如果编译失败请改为其他中文字体").toList,
         ("% 可选字体: Noto Sans CJK SC, Source Han Sans SC, SimSun, FandolSong").toList,
         ("\\setCJKmainfont\x7bNoto Sans CJK SC\x7d").toList,
         ("\\setCJKsansfont\x7bNoto Sans CJK SC\x7d").toList,
         ("\\setCJKmonofont\x7bNoto Sans CJK SC\x7d").toList]
      else
        [("\\setCJKmainfont[Path=/fonts/]\x7bNotoSansCJKsc-Regular.otf\x7d").toList,
         ("\\setCJKsansfont[Path=/fonts/]\x7bNotoSansCJKsc-Regular.otf\x7d").toList,
         ("\\setCJKmonofont[Path=/fonts/]\x7bNotoSansCJKsc-Regular.otf\x7d").toList])
    else []) ++
    (if result.hasImages then [("\\usepackage\x7bgraphicx\x7d").toList] else []) ++
    (if result.packages.contains "hyperref" then
      [("\\usepackage\x7bhyperref\x7d").toList,
       ("\\hypersetup\x7b").toList,
       ("    colorlinks=true,").toList,
       ("    linkcolor=blue,").toList,
       ("    urlcolor=blue,").toList,
       ("    citecolor=blue").toList,
       [rbChar]]
    else []) ++
    (if result.hasMath then
      [("\\usepackage\x7bamsmath\x7d").toList, ("\\usepackage\x7bamssymb\x7d").toList]
    else []) ++
    (if result.hasTables then
      (if result.packages.contains "booktabs" then [("\\usepackage\x7bbooktabs\x7d").toList] else []) ++
      (if result.packages.contains "tabularx" then [("\\usepackage\x7btabularx\x7d").toList] else []) ++
      (if result.packages.contains "longtable" then [("\\usepackage\x7blongtable\x7d").toList] else []) ++
      [("\\usepackage\x7barray\x7d").toList]
    else []) ++
    (if result.hasCode then
      [("\\usepackage\x7blistings\x7d").toList,
       ("\\usepackage\x7bxcolor\x7d").toList,
       ("\\lstset\x7b").toList,
       ("    basicstyle=\\ttfamily\\small,").toList,
       ("    breaklines=true,").toList,
       ("    frame=single,").toList,
       ("    numbers=left,").toList,
       ("    numberstyle=\\tiny,").toList,
       ("    backgroundcolor=\\color\x7bgray!10\x7d,").toList,
       ("    keywordstyle=\\color\x7bblue\x7d,").toList,
       ("    commentstyle=\\color\x7bgreen!50!black\x7d,").toList,
       ("    stringstyle=\\color\x7bred\x7d").toList,
       [rbChar]]
    else []) ++
    (if result.packages.contains "ulem" then
      [("\\usepackage[normalem]\x7bulem\x7d").toList]
    else []) ++
    [("\\usepackage\x7benumitem\x7d").toList, ("\\usepackage\x7bfloat\x7d").toList]
  joinWith ['\n'] packages

/-- `generateDocumentConfig(result, config)`: fixed geometry and paragraph
settings (both parameters are unused in the source). -/
def generateDocumentConfigBlock : List Char :=
  joinWith ['\n']
    [("% 页面布局设置").toList,
     ("\\geometry\x7b").toList,
     ("    left=2.5cm,").toList,
     ("    right=2.5cm,").toList,
     ("    top=2.5cm,").toList,
     ("    bottom=2.5cm").toList,
     [rbChar],
     [],
     ("% 段落设置").toList,
     ("\\setlength\x7b\\parindent\x7d\x7b0pt\x7d").toList,
     ("\\setlength\x7b\\parskip\x7d\x7b0.5em\x7d").toList]

/-- `DocumentGenerator.generate(renderResult, config, forExport)`. -/
def generate (renderResult : RenderResult) (config : DocumentConfig)
    (forExport : Bool) : List Char :=
  let sections : List (List Char) :=
    [generateDocumentClass config, [],
     generatePackages renderResult config forExport, [],
     generateDocumentConfigBlock, [],
     ("\\begin\x7bdocument\x7d").toList, []] ++
    (if config.enableTOC then
      [("\\tableofcontents").toList, ("\\newpage").toList, []]
    else []) ++
    [renderResult.content, [],
     ("\\end\x7bdocument\x7d").toList]
  joinWith ['\n'] sections

/-! ## Derived characterisations of the escaper -/

/-- The ten LaTeX-special characters. -/
def latexSpecials : List Char :=
  [bsChar, '&', '%', '$', '#', '_', lbChar, rbChar, '~', '^']

/-- Per-character effect of `escapeText`.  Every special character other
than the backslash maps to its table entry; the backslash maps to
`\textbackslash\{\}` because the braces introduced by the backslash
substitution are themselves escaped by the later brace substitutions. -/
def escCharSpec (c : Char) : List Char :=
  if c = bsChar then ("\\textbackslash").toList ++ [bsChar, lbChar, bsChar, rbChar]
  else if c = '&' then [bsChar, '&']
  else if c = '%' then [bsChar, '%']
  else if c = '$' then [bsChar, '$']
  else if c = '#' then [bsChar, '#']
  else if c = '_' then [bsChar, '_']
  else if c = lbChar then [bsChar, lbChar]
  else if c = rbChar then [bsChar, rbChar]
  else if c = '~' then ("\\textasciitilde\x7b\x7d").toList
  else if c = '^' then ("\\textasciicircum\x7b\x7d").toList
  else [c]

lemma escapeText_eq (s : List Char) :
    escapeText s =
      replaceAllChar '^' (("\\textasciicircum\x7b\x7d").toList)
        (replaceAllChar '~' (("\\textasciitilde\x7b\x7d").toList)
          (replaceAllChar rbChar [bsChar, rbChar]
            (replaceAllChar lbChar [bsChar, lbChar]
              (replaceAllChar '_' [bsChar, '_']
                (replaceAllChar '#' [bsChar, '#']
                  (replaceAllChar '$' [bsChar, '$']
                    (replaceAllChar '%' [bsChar, '%']
                      (replaceAllChar '&' [bsChar, '&']
                        (replaceAllChar bsChar (("\\textbackslash\x7b\x7d").toList) s))))))))) := rfl

lemma replaceAllChar_append (p : Char) (r a b : List Char) :
    replaceAllChar p r (a ++ b) = replaceAllChar p r a ++ replaceAllChar p r b := by
  induction a with
  | nil => rfl
  | cons c t ih => simp [replaceAllChar, ih]

lemma escapeText_append (a b : List Char) :
    escapeText (a ++ b) = escapeText a ++ escapeText b := by
  simp [escapeText_eq, replaceAllChar_append]

lemma escapeText_single (c : Char) : escapeText [c] = escCharSpec c := by
  by_cases h0 : c = bsChar
  · subst h0; decide
  by_cases h1 : c = '&'
  · subst h1; decide
  by_cases h2 : c = '%'
  · subst h2; decide
  by_cases h3 : c = '$'
  · subst h3; decide
  by_cases h4 : c = '#'
  · subst h4; decide
  by_cases h5 : c = '_'
  · subst h5; decide
  by_cases h6 : c = lbChar
  · subst h6; decide
  by_cases h7 : c = rbChar
  · subst h7; decide
  by_cases h8 : c = '~'
  · subst h8; decide
  by_cases h9 : c = '^'
  · subst h9; decide
  rw [escapeText_eq]
  simp [replaceAllChar, escCharSpec, h0, h1, h2, h3, h4, h5, h6, h7, h8, h9]

lemma escapeText_charwise (s : List Char) :
    escapeText s = (s.map escCharSpec).flatten := by
  induction s with
  | nil => decide
  | cons c t ih =>
    have hct : (c :: t) = [c] ++ t := rfl
    rw [hct, escapeText_append, escapeText_single, List.map_append, List.flatten_append]
    simp [ih]

/-- A conservative scanner for "no unescaped special character": every
special character must occur as part of one of the escape sequences the
escaper can emit (`\&`, `\%`, `\$`, `\#`, `\_`, `\{`, `\}`,
`\textbackslash`, `\textasciitilde{}`, `\textasciicircum{}`). -/
def noUnescapedSpecials : List Char → Bool
  | [] => true
  | c :: rest =>
    if c = bsChar then
      match rest with
      | [] => false
      | d :: rest2 =>
        if d = '&' ∨ d = '%' ∨ d = '$' ∨ d = '#' ∨ d = '_' ∨ d = lbChar ∨ d = rbChar then
          noUnescapedSpecials rest2
        else if isPre ['t','e','x','t','b','a','c','k','s','l','a','s','h'] (d :: rest2) then
          noUnescapedSpecials (rest2.drop 12)
        else if isPre ['t','e','x','t','a','s','c','i','i','t','i','l','d','e',lbChar,rbChar] (d :: rest2) then
          noUnescapedSpecials (rest2.drop 15)
        else if isPre ['t','e','x','t','a','s','c','i','i','c','i','r','c','u','m',lbChar,rbChar] (d :: rest2) then
          noUnescapedSpecials (rest2.drop 16)
        else false
    else if c = '&' ∨ c = '%' ∨ c = '$' ∨ c = '#' ∨ c = '_' ∨ c = lbChar ∨ c = rbChar ∨
        c = '~' ∨ c = '^' then false
    else noUnescapedSpecials rest
termination_by s => s.length
decreasing_by
  all_goals simp only [List.length_cons, List.length_drop]
  all_goals omega

lemma noUnescapedSpecials_escCharSpec (c : Char) (rest : List Char) :
    noUnescapedSpecials (escCharSpec c ++ rest) = noUnescapedSpecials rest := by
  by_cases h0 : c = bsChar
  · subst h0; simp [escCharSpec, noUnescapedSpecials, isPre, bsChar, lbChar, rbChar]
  by_cases h1 : c = '&'
  · subst h1; simp [escCharSpec, noUnescapedSpecials, isPre, bsChar, lbChar, rbChar]
  by_cases h2 : c = '%'
  · subst h2; simp [escCharSpec, noUnescapedSpecials, isPre, bsChar, lbChar, rbChar]
  by_cases h3 : c = '$'
  · subst h3; simp [escCharSpec, noUnescapedSpecials, isPre, bsChar, lbChar, rbChar]
  by_cases h4 : c = '#'
  · subst h4; simp [escCharSpec, noUnescapedSpecials, isPre, bsChar, lbChar, rbChar]
  by_cases h5 : c = '_'
  · subst h5; simp [escCharSpec, noUnescapedSpecials, isPre, bsChar, lbChar, rbChar]
  by_cases h6 : c = lbChar
  · subst h6; simp [escCharSpec, noUnescapedSpecials, isPre, bsChar, lbChar, rbChar]
  by_cases h7 : c = rbChar
  · subst h7; simp [escCharSpec, noUnescapedSpecials, isPre, bsChar, lbChar, rbChar]
  by_cases h8 : c = '~'
  · subst h8; simp [escCharSpec, noUnescapedSpecials, isPre, bsChar, lbChar, rbChar]
  by_cases h9 : c = '^'
  · subst h9; simp [escCharSpec, noUnescapedSpecials, isPre, bsChar, lbChar, rbChar]
  have he : escCharSpec c = [c] := by
    simp [escCharSpec, h0, h1, h2, h3, h4, h5, h6, h7, h8, h9]
  rw [he]
  show noUnescapedSpecials (c :: rest) = noUnescapedSpecials rest
  rw [noUnescapedSpecials.eq_def]
  simp [h0, h1, h2, h3, h4, h5, h6, h7, h8, h9]

lemma noUnescapedSpecials_escapeText (s : List Char) :
    noUnescapedSpecials (escapeText s) = true := by
  rw [escapeText_charwise]
  induction s with
  | nil => simp [noUnescapedSpecials]
  | cons c t ih =>
    simp only [List.map_cons, List.flatten_cons]
    rw [noUnescapedSpecials_escCharSpec]
    exact ih

/-! ## Claim theorems -/

/-- C8: for every text that contains none of the ten special characters
`\ & % $ # _ { } ~ ^`, `escapeLaTeX(text)` (with the default
`preserveMath = false`) returns the text unchanged. -/
theorem claim_C8_escape_identity_on_plain_text (s : List Char)
    (h : ∀ c ∈ s, c ∉ latexSpecials) : escapeLaTeX s false = s := by
  have he : escapeText s = s := by
    rw [escapeText_charwise]
    induction s with
    | nil => rfl
    | cons c t ih =>
      have hc := h c (by simp)
      have hs : escCharSpec c = [c] := by
        simp only [latexSpecials, List.mem_cons, List.mem_singleton] at hc
        push_neg at hc
        obtain ⟨h0, h1, h2, h3, h4, h5, h6, h7, h8, h9⟩ := hc
        simp [escCharSpec, h0, h1, h2, h3, h4, h5, h6, h7, h8, h9]
      simp only [List.map_cons, List.flatten_cons, hs]
      rw [ih (fun d hd => h d (by simp [hd]))]
      rfl
  rcases Decidable.em (s = []) with hnil | hnil
  · subst hnil; rfl
  · simp [escapeLaTeX, hnil, he]

/-- C8 witness: a concrete special-character-free text is returned
unchanged. -/
theorem claim_C8_escape_identity_on_plain_text_witness :
    escapeLaTeX ("hello world 123").toList false = ("hello world 123").toList :=
  claim_C8_escape_identity_on_plain_text (("hello world 123").toList) (by decide)

/-- C5 counterexample: the backslash is *not* replaced by its table escape
form `\textbackslash{}`; the braces that substitution introduces are escaped
again by the later brace substitutions, so a lone backslash becomes
`\textbackslash\{\}`. -/
theorem claim_C5_counterexample :
    escapeLaTeX [bsChar] false =
        (("\\textbackslash").toList ++ [bsChar, lbChar, bsChar, rbChar]) ∧
      escapeLaTeX [bsChar] false ≠ ("\\textbackslash\x7b\x7d").toList := by
  constructor
  · decide
  · decide

/-- C5 (amended): `escapeText` acts character-by-character; every special
character other than the backslash is replaced by its table escape form and
every other character is kept, but the backslash becomes
`\textbackslash\{\}` (its braces re-escaped); consequently the output never
contains an unescaped occurrence of any of the ten special characters. -/
theorem claim_C5_amended_escape_output_fully_escaped (s : List Char) :
    escapeText s = (s.map escCharSpec).flatten ∧
      noUnescapedSpecials (escapeText s) = true :=
  ⟨escapeText_charwise s, noUnescapedSpecials_escapeText s⟩

/-- C3: the math-preserving scan finds `$x^2$` and protects it while the
surrounding `_` are escaped — the claim's concrete case holds byte for byte.
But the restore step is a JavaScript string `replace` whose replacement
value is the math span, and ECMAScript substitution turns `$$` in a
replacement into a literal `$`: a block span `$$x^2$$` comes back as
`$x^2$`, so spans are *not* always spliced back verbatim. -/
theorem claim_C3_math_preservation_block_collapse :
    escapeLaTeX (("a_b $x^2$ c_d").toList) true = ("a\\_b $x^2$ c\\_d").toList ∧
      escapeLaTeX (("$$x^2$$").toList) true = ("$x^2$").toList ∧
      ("$x^2$").toList ≠ ("$$x^2$$").toList := by
  refine ⟨by decide, by decide, by decide⟩

/-- C1: `processTable` selects the environment by the first-match decision
order — more than 30 rows gives `longtable`; otherwise, if no column's
maximal display width reaches the configured threshold, `tabular`;
otherwise `tabularx` when there are at most 5 columns, else `tabular`.
Concretely, 31 one-column short rows give `longtable` (with no long-text
column), and 5 rows with 3 columns of which one is long-text give
`tabularx`. -/
theorem claim_C1_environment_selection :
    (∀ (cfg : TableConfig) (rows : List (List (List Char))) (aligns : List Alignment),
      (processTable cfg rows aligns).environment =
        (if 30 < (analyzeTable cfg rows aligns).numRows then Env.longtable
         else if ((analyzeTable cfg rows aligns).columnMaxLengths.any
             (fun len => cfg.autoWrapThreshold ≤ len)) = false then Env.tabular
         else if (analyzeTable cfg rows aligns).numCols ≤ 5 then Env.tabularx
         else Env.tabular)) ∧
    (processTable ⟨"booktabs", 20⟩ (List.replicate 31 [("a").toList]) []).environment =
        Env.longtable ∧
    (analyzeTable ⟨"booktabs", 20⟩ (List.replicate 31 [("a").toList]) []).numRows = 31 ∧
    (analyzeTable ⟨"booktabs", 20⟩ (List.replicate 31 [("a").toList]) []).hasLongText = false ∧
    (processTable ⟨"booktabs", 20⟩
        (List.replicate 5 [("x").toList, List.replicate 25 'a', ("y").toList]) []).environment =
        Env.tabularx ∧
    (analyzeTable ⟨"booktabs", 20⟩
        (List.replicate 5 [("x").toList, List.replicate 25 'a', ("y").toList]) []).numRows = 5 ∧
    (analyzeTable ⟨"booktabs", 20⟩
        (List.replicate 5 [("x").toList, List.replicate 25 'a', ("y").toList]) []).numCols = 3 ∧
    (analyzeTable ⟨"booktabs", 20⟩
        (List.replicate 5 [("x").toList, List.replicate 25 'a', ("y").toList]) []).longTextColumns =
        [1] := by
  refine ⟨?_, by decide, by decide, by decide, by decide, by decide, by decide, by decide⟩
  intro cfg rows aligns
  rcases Decidable.em (rows = []) with h | h
  · subst h
    simp [processTable, analyzeTable, selectEnvironment]
  · simp only [processTable, if_neg h, selectEnvironment, analyzeTable]

lemma isPre_append_self (l t : List Char) : isPre l (l ++ t) = true := by
  induction l with
  | nil => rfl
  | cons c r ih => simp [isPre, ih]

/-- The sections of the assembled document after the document-class line
(used to expose the head of `generate`'s output). -/
def generateTail (renderResult : RenderResult) (config : DocumentConfig)
    (forExport : Bool) : List (List Char) :=
  [[], generatePackages renderResult config forExport, [],
   generateDocumentConfigBlock, [],
   ("\\begin\x7bdocument\x7d").toList, []] ++
  (if config.enableTOC then
    [("\\tableofcontents").toList, ("\\newpage").toList, []]
  else []) ++
  [renderResult.content, [],
   ("\\end\x7bdocument\x7d").toList]

lemma generate_head (r : RenderResult) (c : DocumentConfig) (fe : Bool) :
    generate r c fe =
      (generateDocumentClass c ++ ['\n']) ++ joinWith ['\n'] (generateTail r c fe) := rfl

/-- C6 counterexample: an out-of-enum option is not rejected.  With the
unrecognized table style `"fancy"` a full table is still emitted (identical
to the `"standard"` output), and with the out-of-enum document options
`bogusclass`/`13pt`/`b9paper` a complete document is emitted that embeds
them verbatim — nothing fails fast. -/
theorem claim_C6_counterexample :
    (processTable ⟨"fancy", 20⟩ [[("a").toList, ("b").toList]] []).latexCode ≠ [] ∧
      processTable ⟨"fancy", 20⟩ [[("a").toList, ("b").toList]] [] =
        processTable ⟨"standard", 20⟩ [[("a").toList, ("b").toList]] [] ∧
      isPre (generateDocumentClass ⟨"bogusclass", "13pt", "b9paper", false, false⟩ ++ ['\n'])
        (generate ⟨("x").toList, [], false, false, false, false, false⟩
          ⟨"bogusclass", "13pt", "b9paper", false, false⟩ false) = true := by
  refine ⟨by decide, by decide, by decide⟩

/-- C6 (amended): out-of-enum configuration values are silently accepted:
every table style other than `"booktabs"` behaves exactly like
`"standard"`, and `generate` always emits a complete document whose first
line interpolates the provided class/font/page options verbatim; no
validation or rejection happens anywhere. -/
theorem claim_C6_amended_no_fail_fast :
    (∀ (cfg : TableConfig) (rows : List (List (List Char))) (aligns : List Alignment),
        cfg.tableStyle ≠ "booktabs" →
        processTable cfg rows aligns =
          processTable ⟨"standard", cfg.autoWrapThreshold⟩ rows aligns) ∧
    (∀ (r : RenderResult) (c : DocumentConfig) (fe : Bool),
        isPre (generateDocumentClass c ++ ['\n']) (generate r c fe) = true) := by
  constructor
  · intro cfg rows aligns hst
    obtain ⟨s, t⟩ := cfg
    simp only [TableConfig.tableStyle] at hst
    simp [processTable, analyzeTable, selectEnvironment, generateColumnSpec,
      generateTabularxSpec, generateTabularSpec, assembleTable, getRequiredPackages, hst]
  · intro r c fe
    rw [generate_head]
    exact isPre_append_self _ _

/-- C6 witness: the amended behaviour at concrete out-of-enum inputs. -/
theorem claim_C6_amended_no_fail_fast_witness :
    processTable ⟨"fancy", 7⟩ [[("a").toList]] [] =
        processTable ⟨"standard", 7⟩ [[("a").toList]] [] ∧
      isPre (generateDocumentClass ⟨"article", "12pt", "a4paper", false, false⟩ ++ ['\n'])
        (generate ⟨("x").toList, [], false, false, false, false, false⟩
          ⟨"article", "12pt", "a4paper", false, false⟩ false) = true :=
  ⟨claim_C6_amended_no_fail_fast.1 ⟨"fancy", 7⟩ [[("a").toList]] [] (by decide),
    claim_C6_amended_no_fail_fast.2 _ _ _⟩

/-- C7 counterexample: with a nonempty alignments argument whose length
differs from the column count (here 1 alignment for 2 columns), the
analysis keeps the given alignments, so
`alignments.length ≠ numCols`. -/
theorem claim_C7_counterexample :
    (processTable ⟨"booktabs", 20⟩ [[("a").toList, ("b").toList]] [Alignment.left]).analysis =
        some (analyzeTable ⟨"booktabs", 20⟩ [[("a").toList, ("b").toList]] [Alignment.left]) ∧
      (analyzeTable ⟨"booktabs", 20⟩ [[("a").toList, ("b").toList]]
          [Alignment.left]).numCols = 2 ∧
      (analyzeTable ⟨"booktabs", 20⟩ [[("a").toList, ("b").toList]]
          [Alignment.left]).alignments.length ≠
        (analyzeTable ⟨"booktabs", 20⟩ [[("a").toList, ("b").toList]]
          [Alignment.left]).numCols := by
  refine ⟨by decide, by decide, by decide⟩

/-- C7 (amended): for nonempty rows, the analysis produced by
`processTable` always satisfies `columnMaxLengths.length = numCols`, and
`alignments.length = numCols` holds whenever the alignments argument is
empty (it is padded with `left`) or already has exactly `numCols` entries —
but not for other nonempty lengths, which are kept as given. -/
theorem claim_C7_amended_analysis_invariant (cfg : TableConfig)
    (rows : List (List (List Char))) (aligns : List Alignment)
    (h : rows ≠ [])
    (ha : aligns.length = 0 ∨ aligns.length = (analyzeTable cfg rows aligns).numCols) :
    (processTable cfg rows aligns).analysis = some (analyzeTable cfg rows aligns) ∧
      (analyzeTable cfg rows aligns).columnMaxLengths.length =
        (analyzeTable cfg rows aligns).numCols ∧
      (analyzeTable cfg rows aligns).alignments.length =
        (analyzeTable cfg rows aligns).numCols := by
  refine ⟨by simp [processTable, h], by simp [analyzeTable], ?_⟩
  rcases ha with ha | ha
  · have : aligns = [] := List.length_eq_zero.mp ha
    subst this
    simp [analyzeTable]
  · by_cases hp : 0 < aligns.length
    · simpa [analyzeTable, hp] using ha
    · have : aligns = [] := List.length_eq_zero.mp (by omega)
      subst this
      simp [analyzeTable]

/-- C7 witness: a 1-column table with one alignment satisfies the
invariant. -/
theorem claim_C7_amended_analysis_invariant_witness :
    (processTable ⟨"booktabs", 20⟩ [[("a").toList]] [Alignment.center]).analysis =
        some (analyzeTable ⟨"booktabs", 20⟩ [[("a").toList]] [Alignment.center]) ∧
      (analyzeTable ⟨"booktabs", 20⟩ [[("a").toList]] [Alignment.center]).columnMaxLengths.length =
        (analyzeTable ⟨"booktabs", 20⟩ [[("a").toList]] [Alignment.center]).numCols ∧
      (analyzeTable ⟨"booktabs", 20⟩ [[("a").toList]] [Alignment.center]).alignments.length =
        (analyzeTable ⟨"booktabs", 20⟩ [[("a").toList]] [Alignment.center]).numCols :=
  claim_C7_amended_analysis_invariant ⟨"booktabs", 20⟩ [[("a").toList]] [Alignment.center]
    (by decide) (Or.inr (by decide))

/-- C4: rendering the same markdown twice on the same renderer state gives
identical package sets and identical feature flags: `render` clears the
package set and resets all five flags before doing anything, so nothing
accumulates across calls (the parser is deterministic and is abstracted as
an explicit function). -/
theorem claim_C4_render_reset_idempotent :
    ∀ (parse : List Char → List Token) (cfg : TableConfig) (acc : Accum) (md : List Char),
      (render parse cfg (render parse cfg acc md).1 md).2.packages =
          (render parse cfg acc md).2.packages ∧
        (render parse cfg (render parse cfg acc md).1 md).2.hasChinese =
          (render parse cfg acc md).2.hasChinese ∧
        (render parse cfg (render parse cfg acc md).1 md).2.hasImages =
          (render parse cfg acc md).2.hasImages ∧
        (render parse cfg (render parse cfg acc md).1 md).2.hasTables =
          (render parse cfg acc md).2.hasTables ∧
        (render parse cfg (render parse cfg acc md).1 md).2.hasCode =
          (render parse cfg acc md).2.hasCode ∧
        (render parse cfg (render parse cfg acc md).1 md).2.hasMath =
          (render parse cfg acc md).2.hasMath := by
  intro parse cfg acc md
  exact ⟨rfl, rfl, rfl, rfl, rfl, rfl⟩

/-- An inline container in which the text `abc` appears first as plain text
and then again inside a `strong` span. -/
def strongDupParagraph : Token :=
  { ttype := "inline", tag := "", content := [],
    children := some
      [ { ttype := "text", tag := "", content := ("abc ").toList, children := none,
          attrs := [], info := [] }
      , { ttype := "strong_open", tag := "", content := [], children := none,
          attrs := [], info := [] }
      , { ttype := "text", tag := "", content := ("abc").toList, children := none,
          attrs := [], info := [] }
      , { ttype := "strong_close", tag := "", content := [], children := none,
          attrs := [], info := [] } ],
    attrs := [], info := [] }

/-- C9: the decoration is applied by a first-occurrence string substitution
on the already-rendered paragraph.  For `abc **abc**`, the bold command
lands on the *earlier* plain occurrence of `abc`, not on the run that
carried the marker: the rendering is `\textbf{abc} abc`, not
`abc \textbf{abc}`. -/
theorem claim_C9_first_occurrence_decoration :
    (renderInline ⟨[], blankFlags⟩ strongDupParagraph).2 = ("\\textbf\x7babc\x7d abc").toList ∧
      (renderInline ⟨[], blankFlags⟩ strongDupParagraph).2 ≠ ("abc \\textbf\x7babc\x7d").toList := by
  refine ⟨by decide, by decide⟩

/-- C10: `updateConfig` (and the renderer's `updateTableConfig`, which
delegates to it) merges the partial configuration over the existing one:
present fields overwrite, absent fields keep their previous value, and a
subsequent `processTable` call runs with exactly the merged
configuration. -/
theorem claim_C10_update_config_merge :
    (∀ (cfg : TableConfig) (p : PartialTableConfig) (v : String),
        p.tableStyle = some v → (updateConfig cfg p).tableStyle = v) ∧
      (∀ (cfg : TableConfig) (p : PartialTableConfig),
        p.tableStyle = none → (updateConfig cfg p).tableStyle = cfg.tableStyle) ∧
      (∀ (cfg : TableConfig) (p : PartialTableConfig) (n : ℕ),
        p.autoWrapThreshold = some n → (updateConfig cfg p).autoWrapThreshold = n) ∧
      (∀ (cfg : TableConfig) (p : PartialTableConfig),
        p.autoWrapThreshold = none →
          (updateConfig cfg p).autoWrapThreshold = cfg.autoWrapThreshold) ∧
      (∀ (cfg : TableConfig) (p : PartialTableConfig) (rows : List (List (List Char)))
          (aligns : List Alignment),
        processTable (updateTableConfig cfg p) rows aligns =
          processTable (updateConfig cfg p) rows aligns) := by
  refine ⟨?_, ?_, ?_, ?_, ?_⟩
  · intro cfg p v h; simp [updateConfig, h]
  · intro cfg p h; simp [updateConfig, h]
  · intro cfg p n h; simp [updateConfig, h]
  · intro cfg p h; simp [updateConfig, h]
  · intro cfg p rows aligns; rfl

/-- C10 witness: overwriting the style while leaving the threshold absent
keeps the old threshold. -/
theorem claim_C10_update_config_merge_witness :
    (updateConfig ⟨"booktabs", 20⟩ ⟨some "standard", none⟩).tableStyle = "standard" ∧
      (updateConfig ⟨"booktabs", 20⟩ ⟨some "standard", none⟩).autoWrapThreshold = 20 :=
  ⟨claim_C10_update_config_merge.1 ⟨"booktabs", 20⟩ ⟨some "standard", none⟩ "standard" rfl,
    claim_C10_update_config_merge.2.2.2.1 ⟨"booktabs", 20⟩ ⟨some "standard", none⟩ rfl⟩

lemma getD_set_self (l : List ℚ) (i : ℕ) (v : ℚ) (h : i < l.length) :
    (l.set i v).getD i 0 = v := by
  induction l generalizing i with
  | nil => simp at h
  | cons a t ih =>
    cases i with
    | zero => rfl
    | succ j => simpa using ih j (by simpa using h)

lemma getD_set_ne (l : List ℚ) (i j : ℕ) (v : ℚ) (h : i ≠ j) :
    (l.set i v).getD j 0 = l.getD j 0 := by
  induction l generalizing i j with
  | nil => simp
  | cons a t ih =>
    cases i with
    | zero =>
      cases j with
      | zero => exact absurd rfl h
      | succ k => rfl
    | succ i' =>
      cases j with
      | zero => rfl
      | succ k => simpa using ih i' k (by omega)

lemma allocLoop_length (avail : ℚ) (lengths : List ℕ) (total : ℕ) :
    ∀ (cols : List ℕ) (w : List ℚ),
      (allocLoop avail lengths total cols w).length = w.length := by
  intro cols
  induction cols with
  | nil => intro w; rfl
  | cons c rest ih => intro w; simpa [allocLoop] using ih (w.set c _)

lemma allocLoop_getD_not_mem (avail : ℚ) (lengths : List ℕ) (total : ℕ) :
    ∀ (cols : List ℕ) (w : List ℚ) (i : ℕ), i ∉ cols →
      (allocLoop avail lengths total cols w).getD i 0 = w.getD i 0 := by
  intro cols
  induction cols with
  | nil => intro w i _; rfl
  | cons c rest ih =>
    intro w i hi
    have hic : c ≠ i := fun h => hi (h ▸ List.mem_cons_self c rest)
    have hir : i ∉ rest := fun h => hi (List.mem_cons_of_mem c h)
    simpa [allocLoop] using (ih (w.set c _) i hir).trans (getD_set_ne w c i _ hic)

lemma allocLoop_getD_mem (avail : ℚ) (lengths : List ℕ) (total : ℕ) :
    ∀ (cols : List ℕ) (w : List ℚ) (i : ℕ), i ∈ cols → i < w.length →
      (allocLoop avail lengths total cols w).getD i 0 =
        clampWidth avail (lengths.getD i 0) total := by
  intro cols
  induction cols with
  | nil => intro w i hi _; simp at hi
  | cons c rest ih =>
    intro w i hi hlen
    by_cases hir : i ∈ rest
    · simpa [allocLoop] using ih (w.set c _) i hir (by simpa using hlen)
    · have hic : i = c := by
        rcases List.mem_cons.mp hi with h | h
        · exact h
        · exact absurd h hir
      subst hic
      have hstep : allocLoop avail lengths total (i :: rest) w =
          allocLoop avail lengths total rest
            (w.set i (clampWidth avail (lengths.getD i 0) total)) := rfl
      rw [hstep,
        allocLoop_getD_not_mem avail lengths total rest _ i hir,
        getD_set_self w i _ hlen]

lemma round2_bounds {q : ℚ} (h1 : 1 / 10 ≤ q) (h2 : q ≤ 4 / 5) :
    1 / 10 ≤ round2 q ∧ round2 q ≤ 4 / 5 := by
  have hlo : (10 : ℤ) ≤ ⌊q * 100 + 1 / 2⌋ := by
    rw [Int.le_floor]
    push_cast
    linarith
  have hhi : ⌊q * 100 + 1 / 2⌋ ≤ (80 : ℤ) := by
    have h : q * 100 + 1 / 2 ≤ (161 : ℚ) / 2 := by linarith
    calc ⌊q * 100 + 1 / 2⌋ ≤ ⌊(161 : ℚ) / 2⌋ := Int.floor_le_floor h
      _ = 80 := by
        rw [Int.floor_eq_iff]
        norm_num
  unfold round2
  constructor
  · rw [le_div_iff₀ (by norm_num : (0 : ℚ) < 100)]
    calc (1 : ℚ) / 10 * 100 = 10 := by norm_num
      _ ≤ (⌊q * 100 + 1 / 2⌋ : ℚ) := by exact_mod_cast hlo
  · rw [div_le_iff₀ (by norm_num : (0 : ℚ) < 100)]
    calc (⌊q * 100 + 1 / 2⌋ : ℚ) ≤ 80 := by exact_mod_cast hhi
      _ = 4 / 5 * 100 := by norm_num

lemma clampWidth_bounds (avail : ℚ) (len total : ℕ) :
    1 / 10 ≤ clampWidth avail len total ∧ clampWidth avail len total ≤ 4 / 5 := by
  unfold clampWidth
  refine round2_bounds ?_ ?_
  · exact le_min (le_max_right _ _) (by norm_num)
  · exact min_le_right _ _

lemma longColsAux_mem {t : ℕ} :
    ∀ (l : List ℕ) (k i : ℕ), i ∈ longColsAux t k l →
      k ≤ i ∧ i - k < l.length ∧ t ≤ l.getD (i - k) 0 := by
  intro l
  induction l with
  | nil => intro k i hi; simp [longColsAux] at hi
  | cons len rest ih =>
    intro k i hi
    simp only [longColsAux] at hi
    by_cases hc : t ≤ len
    · rw [if_pos hc] at hi
      rcases List.mem_cons.mp hi with h | h
      · subst h
        exact ⟨le_refl _, by simp, by simpa [Nat.sub_self] using hc⟩
      · obtain ⟨h1, h2, h3⟩ := ih (k + 1) i h
        refine ⟨by omega, by simp only [List.length_cons]; omega, ?_⟩
        have hik : i - k = (i - (k + 1)) + 1 := by omega
        rw [hik]
        simpa using h3
    · rw [if_neg hc] at hi
      obtain ⟨h1, h2, h3⟩ := ih (k + 1) i hi
      refine ⟨by omega, by simp only [List.length_cons]; omega, ?_⟩
      have hik : i - k = (i - (k + 1)) + 1 := by omega
      rw [hik]
      simpa using h3

/-- C2 (amended): when the clamped proportional allocation already fits
within the reserved available width `1 − 0.05 − 0.02·(numCols−1)` (so the
overflow rescale does not fire), every fraction allocated to a long-text
column of a fixed-width table lies in `[0.10, 0.80]` and the sum of all
allocated fractions is at most the available width.  (When the rescale does
fire, fractions can drop below `0.10` and the rounded sum can exceed the
available width — see the counterexample.) -/
theorem claim_C2_amended_width_invariants (cfg : TableConfig)
    (rows : List (List (List Char))) (aligns : List Alignment) (a : TableAnalysis)
    (ha : a = analyzeTable cfg rows aligns)
    (ht : 1 ≤ cfg.autoWrapThreshold)
    (hl : a.hasLongText = true)
    (henv : selectEnvironment a ≠ Env.tabularx)
    (hs : (clampedWidths a.columnMaxLengths a.longTextColumns).sum ≤
        availableWidth a.columnMaxLengths.length) :
    (∀ i ∈ a.longTextColumns,
        1 / 10 ≤ (calculateColumnWidths a.columnMaxLengths a.longTextColumns).getD i 0 ∧
          (calculateColumnWidths a.columnMaxLengths a.longTextColumns).getD i 0 ≤ 4 / 5) ∧
      (calculateColumnWidths a.columnMaxLengths a.longTextColumns).sum ≤
        availableWidth a.columnMaxLengths.length := by
  have hw : calculateColumnWidths a.columnMaxLengths a.longTextColumns =
      clampedWidths a.columnMaxLengths a.longTextColumns := by
    by_cases hC : a.longTextColumns = []
    · simp [calculateColumnWidths, hC, clampedWidths, allocLoop]
    · simp only [calculateColumnWidths, if_neg hC]
      rw [if_neg (not_lt.mpr hs)]
  refine ⟨?_, by rw [hw]; exact hs⟩
  intro i hi
  have hCL : a.longTextColumns =
      longColsAux cfg.autoWrapThreshold 0 a.columnMaxLengths := by subst ha; rfl
  obtain ⟨-, hlen, -⟩ := longColsAux_mem a.columnMaxLengths 0 i (hCL ▸ hi)
  have hilen : i < a.columnMaxLengths.length := by simpa using hlen
  have hgd : (clampedWidths a.columnMaxLengths a.longTextColumns).getD i 0 =
      clampWidth (availableWidth a.columnMaxLengths.length)
        (a.columnMaxLengths.getD i 0)
        ((a.longTextColumns.map (fun c => a.columnMaxLengths.getD c 0)).sum) := by
    unfold clampedWidths
    exact allocLoop_getD_mem _ _ _ _ _ i hi (by simpa using hilen)
  rw [hw, hgd]
  exact clampWidth_bounds _ _ _

/-- The counterexample table for the width-allocation claim: one row of six
columns, five of display width 2 and one of display width 200, with
threshold 2 — every column is long-text, the environment is the fixed-width
`tabular`, and the overflow rescale fires. -/
def wideRows : List (List (List Char)) :=
  [[("ab").toList, ("cd").toList, ("ef").toList, ("gh").toList, ("ij").toList,
    List.replicate 200 'a']]

set_option maxRecDepth 8000 in
/-- C2 counterexample: on `wideRows` with threshold 2 the analysis has
long-text columns and the fixed-width `tabular` environment, yet the first
allocated fraction is `0.07 < 0.10` and the allocated sum `0.87` exceeds
the available width `0.85`: the uniform rescale (followed by re-rounding)
breaks both halves of the claimed invariant. -/
theorem claim_C2_counterexample :
    (processTable ⟨"booktabs", 2⟩ wideRows []).environment = Env.tabular ∧
      (analyzeTable ⟨"booktabs", 2⟩ wideRows []).hasLongText = true ∧
      (calculateColumnWidths (analyzeTable ⟨"booktabs", 2⟩ wideRows []).columnMaxLengths
          (analyzeTable ⟨"booktabs", 2⟩ wideRows []).longTextColumns).getD 0 0 < 1 / 10 ∧
      availableWidth (analyzeTable ⟨"booktabs", 2⟩ wideRows []).columnMaxLengths.length <
        (calculateColumnWidths (analyzeTable ⟨"booktabs", 2⟩ wideRows []).columnMaxLengths
          (analyzeTable ⟨"booktabs", 2⟩ wideRows []).longTextColumns).sum := by
  have h1 : (analyzeTable ⟨"booktabs", 2⟩ wideRows []).columnMaxLengths =
      [2, 2, 2, 2, 2, 200] := by decide
  have h2 : (analyzeTable ⟨"booktabs", 2⟩ wideRows []).longTextColumns =
      [0, 1, 2, 3, 4, 5] := by decide
  have hne : ¬(([0, 1, 2, 3, 4, 5] : List ℕ) = []) := by decide
  refine ⟨by decide, by decide, ?_, ?_⟩
  · rw [h1, h2]
    norm_num [calculateColumnWidths, clampedWidths, allocLoop, clampWidth, availableWidth,
      round2, List.set, min_def, max_def, if_neg hne, List.getD_cons_zero]
  · rw [h1, h2]
    norm_num [calculateColumnWidths, clampedWidths, allocLoop, clampWidth, availableWidth,
      round2, List.set, min_def, max_def, if_neg hne, List.sum_cons, List.sum_nil]

/-- The witness table for the amended width claim: 31 one-column rows with
cell width 3 and threshold 2, giving the fixed-width `longtable`
environment with one long-text column and no rescale. -/
def tallRows : List (List (List Char)) := List.replicate 31 [("abc").toList]

set_option maxRecDepth 8000 in
/-- C2 witness: the amended invariants at a concrete fixed-width table. -/
theorem claim_C2_amended_width_invariants_witness :
    (1 / 10 ≤ (calculateColumnWidths
          (analyzeTable ⟨"booktabs", 2⟩ tallRows []).columnMaxLengths
          (analyzeTable ⟨"booktabs", 2⟩ tallRows []).longTextColumns).getD 0 0 ∧
        (calculateColumnWidths
          (analyzeTable ⟨"booktabs", 2⟩ tallRows []).columnMaxLengths
          (analyzeTable ⟨"booktabs", 2⟩ tallRows []).longTextColumns).getD 0 0 ≤ 4 / 5) ∧
      (calculateColumnWidths
          (analyzeTable ⟨"booktabs", 2⟩ tallRows []).columnMaxLengths
          (analyzeTable ⟨"booktabs", 2⟩ tallRows []).longTextColumns).sum ≤
        availableWidth (analyzeTable ⟨"booktabs", 2⟩ tallRows []).columnMaxLengths.length := by
  have h := claim_C2_amended_width_invariants ⟨"booktabs", 2⟩ tallRows []
    (analyzeTable ⟨"booktabs", 2⟩ tallRows []) rfl (by decide) (by decide) (by decide)
    (by
      have h1 : (analyzeTable ⟨"booktabs", 2⟩ tallRows []).columnMaxLengths = [3] := by decide
      have h2 : (analyzeTable ⟨"booktabs", 2⟩ tallRows []).longTextColumns = [0] := by decide
      rw [h1, h2]
      norm_num [clampedWidths, allocLoop, clampWidth, availableWidth, round2,
        List.set, min_def, max_def, List.sum_cons, List.sum_nil, List.getD])
  exact ⟨h.1 0 (by decide), h.2⟩

end MarkTex
